import Mathlib

/-
  Verification development for the eas-cli Build Submission and
  Completion-Tracking core.

  Shallow embedding of:
  - packages/eas-cli/src/submit/ArchiveSource.ts  (archive-source resolution)
  - packages/eas-cli/src/build/build.ts           (project upload, completion polling)

  External collaborators (node url.URL, the uuid npm package, the GraphQL
  catalog, the prompt layer) are modelled as parts of an explicit environment.
  Code of the repository that is not part of the provided sources
  (src/prompts.ts, src/submit/utils/builds.ts, src/build/utils/repository.ts,
  src/uploads.ts, src/analytics/common.ts) is modelled from the spec where a
  definition says so in its doc comment.
-/

namespace EasCli

/-- Platform from the eas-build-job package (ANDROID, IOS). -/
inductive Platform
  | android
  | ios
deriving DecidableEq, Repr

/-- AppPlatform from the generated GraphQL types (Android, Ios). -/
inductive AppPlatform
  | android
  | ios
deriving DecidableEq, Repr

/-- toAppPlatform from graphql/types/AppPlatform.ts. -/
def toAppPlatform : Platform → AppPlatform
  | .android => .android
  | .ios => .ios

/-- BuildStatus of the GraphQL schema. The six known members are closed in the
generated enum; `other` stands for any runtime value outside them, which the
polling loop in build.ts handles in its `default` branch. -/
inductive BuildStatus
  | new
  | inQueue
  | inProgress
  | errored
  | finished
  | canceled
  | other
deriving DecidableEq, Repr

/-- BuildFragment snapshot, restricted to the fields the modelled code reads:
`status` and `error` drive the polling loop, `platform` drives the build-id
platform check, `updatedAt` (as epoch milliseconds) drives the 30-day expiry
comparison, `id` identifies the build. Display-only fields (appVersion,
sdkVersion, buildProfile, ...) are omitted: they feed only prompt titles. -/
structure BuildFragment where
  id : String
  platform : AppPlatform
  status : BuildStatus
  error : Option String
  updatedAtMs : Int
deriving DecidableEq, Repr

/- ### uuid validation (model of the uuid npm package) -/

def isHexDigit (c : Char) : Bool :=
  (decide ('0' ≤ c) && decide (c ≤ '9')) ||
  (decide ('a' ≤ c) && decide (c ≤ 'f')) ||
  (decide ('A' ≤ c) && decide (c ≤ 'F'))

/-- 8-4-4-4-12 hex shape with dashes at positions 8, 13, 18, 23. -/
def uuidFormatOk (cs : List Char) : Bool :=
  cs.length == 36 &&
  (List.range 36).all (fun i =>
    if i == 8 || i == 13 || i == 18 || i == 23 then cs.getD i ' ' == '-'
    else isHexDigit (cs.getD i ' '))

def nilUuidChars : List Char := "00000000-0000-0000-0000-000000000000".data

/-- Model of uuid.validate: the RFC shape with version digit 1-5 and variant
nibble 8, 9, a or b (case-insensitive), or the nil UUID. -/
def uuidValidate (s : String) : Bool :=
  let cs := s.data
  (uuidFormatOk cs &&
    ['1', '2', '3', '4', '5'].contains (cs.getD 14 ' ') &&
    ['8', '9', 'a', 'b', 'A', 'B'].contains (cs.getD 19 ' '))
  || cs == nilUuidChars

/-- isUuidV4 from ArchiveSource.ts: uuid.validate(s) && uuid.version(s) === 4,
where uuid.version reads the hex digit at index 14. -/
def isUuidV4 (s : String) : Bool :=
  uuidValidate s && s.data.getD 14 ' ' == '4'

/- ### The build-details-page recognizer
   isBuildDetailsPage matches url against the JavaScript regular expression
     expo\.(dev|io).*\/builds\/(.{36}).*
   (String.prototype.match, no anchors). The model reproduces that semantics:
   leftmost start of `expo.(dev|io)` with `dev` tried before `io`, a greedy
   `.*` (so the LAST viable `/builds/` occurrence is captured), `.` matching
   every character except a newline, and a 36-character capture group. -/

def noNewline (cs : List Char) : Bool := cs.all (fun c => c ≠ '\n')

def listSlice (cs : List Char) (a b : Nat) : List Char := (cs.drop a).take (b - a)

def litAt (cs pat : List Char) (j : Nat) : Bool := pat.isPrefixOf (cs.drop j)

/-- Can `\/builds\/(.{36})` start at position j, with the `.*` gap from e to j
consisting of non-newline characters? -/
def buildsGroupOk (cs : List Char) (e j : Nat) : Bool :=
  decide (e ≤ j) && noNewline (listSlice cs e j) &&
  litAt cs ("/builds/".data) j &&
  decide (j + 44 ≤ cs.length) && noNewline (listSlice cs (j + 8) (j + 44))

/-- Greedy `.*`: the last position where the `/builds/` tail can match. -/
def lastBuildsStart (cs : List Char) (e : Nat) : Option Nat :=
  ((List.range (cs.length + 1)).filter (fun j => buildsGroupOk cs e j)).getLast?

/-- `expo\.(dev|io)` at position i; the alternation tries `dev` first. -/
def expoTagEnd (cs : List Char) (i : Nat) : Option Nat :=
  if litAt cs ("expo.dev".data) i then some (i + 8)
  else if litAt cs ("expo.io".data) i then some (i + 7)
  else none

/-- The capture group of a match whose `expo.(dev|io)` starts at i, if the
whole pattern matches from there. -/
def groupFromStart (cs : List Char) (i : Nat) : Option (List Char) :=
  match expoTagEnd cs i with
  | none => none
  | some e =>
    match lastBuildsStart cs e with
    | none => none
    | some j => some (listSlice cs (j + 8) (j + 44))

def firstSome {α : Type} : List (Option α) → Option α
  | [] => none
  | some a :: _ => some a
  | none :: rest => firstSome rest

/-- The capture group (second group) of url.match(the pattern), if any. -/
def jsBuildDetailsGroup (s : String) : Option String :=
  match firstSome ((List.range (s.data.length + 1)).map (groupFromStart s.data)) with
  | some g => some (String.mk g)
  | none => none

/-- isBuildDetailsPage from ArchiveSource.ts: the regex capture group, kept
only when it is a version-4 UUID (TS returns string | false; Option here). -/
def isBuildDetailsPage (s : String) : Option String :=
  match jsBuildDetailsGroup s with
  | some g => if isUuidV4 g then some g else none
  | none => none

/- ### URL validation -/

/-- Result of the WHATWG URL constructor (node url); external collaborator,
so the parse itself is an oracle of the resolution environment. The
constructor lowercases the protocol, which the oracle is assumed to reflect. -/
structure ParsedUrl where
  protocol : String
deriving DecidableEq, Repr

/- ### ArchiveSource resolution (ArchiveSource.ts) -/

/-- export const BUILD_LIST_ITEM_COUNT = 4. -/
def BUILD_LIST_ITEM_COUNT : Nat := 4

/-- enum ArchiveSourceType. -/
inductive ArchiveSourceType
  | url
  | latest
  | path
  | buildId
  | buildList
  | prompt
deriving DecidableEq, Repr

/-- The ArchiveSource union. The TS code builds successive intents by object
spread ({...source, sourceType: ..., field}), which copies every data field
along; the model therefore keeps url, path and id as always-present fields —
only the field matching the variant tag is ever read. -/
structure ArchiveSrc where
  sourceType : ArchiveSourceType
  platform : Platform
  projectId : String
  nonInteractive : Bool
  url : String
  path : String
  id : String
deriving DecidableEq, Repr

/-- {...source, sourceType: ArchiveSourceType.prompt}. -/
def promptOf (s : ArchiveSrc) : ArchiveSrc := { s with sourceType := .prompt }

/-- The Archive result: build and url are the two optional payload fields of
the TS interface, source the intent that produced it. -/
structure Archive where
  build : Option BuildFragment
  source : ArchiveSrc
  url : Option String
deriving DecidableEq, Repr

/-- Failure modes of a resolution run. nonInteractiveMode is the prompt
layer's fail-fast error; fetchFailed and uploadFailed carry rethrown
collaborator errors; neverHappen is the `throw new Error('This should never
happen')` default of handlePromptSourceAsync; fuelExhausted is an artifact of
the fuel-indexed embedding of the unbounded TS recursion. -/
inductive ArchiveError
  | nonInteractiveMode
  | fetchFailed (msg : String)
  | uploadFailed (msg : String)
  | neverHappen
  | fuelExhausted
deriving DecidableEq, Repr

/-- Ghost trace of observable effects, used only to state properties
(which variants were visited, which network calls happened). -/
inductive EffectE
  | visitE (t : ArchiveSourceType)
  | fetchRecentE (limit : Option Nat)
  | fetchByIdE (id : String)
  | uploadE (path : String)
  | promptE
deriving DecidableEq, Repr

/-- Resolution state: a counter scripting prompt answers, and the ghost
effect trace (newest first). -/
structure RSt where
  promptCount : Nat
  trace : List EffectE
deriving DecidableEq, Repr

/-- Environment of external collaborators consumed by getArchiveAsync.
parseURL is the node URL constructor; byId is BuildQuery.byIdAsync;
recentBuilds is getRecentBuildsForSubmissionAsync (its optional limit
argument made explicit); isExistingFile and uploadAppArchive come from
submit/utils/files.ts; nowMs is new Date(); the *Answer fields script the
interactive prompt replies by prompt counter. -/
structure ResolveEnv where
  parseURL : String → Option ParsedUrl
  byId : String → Except String BuildFragment
  recentBuilds : Option Nat → Except String (List BuildFragment)
  isExistingFile : String → Bool
  uploadAppArchive : String → Except String String
  nowMs : Int
  confirmAnswer : Nat → Bool
  selectSourceAnswer : Nat → ArchiveSourceType
  selectBuildAnswer : Nat → Nat
  urlAnswer : Nat → String
  pathAnswer : Nat → String
  idAnswer : Nat → String

/-- validateUrl from ArchiveSource.ts: new URL(url) must succeed and its
protocol must be http: or https: (the protocols list is non-empty, and an
empty protocol yields false). -/
def validateUrl (env : ResolveEnv) (url : String) : Bool :=
  match env.parseURL url with
  | none => false
  | some parsed =>
    if parsed.protocol == "" then false
    else ["http:", "https:"].contains parsed.protocol

/-- Modelled from the spec: promptAsync/confirmAsync live in src/prompts.ts,
which is not among the provided sources. Per the spec's InteractivePrompter
contract the prompt layer "no-ops/fails fast when the session is
non-interactive"; on success it yields the scripted answer index and bumps
the prompt counter. -/
def promptStep (nonInteractive : Bool) (st : RSt) : Except ArchiveError (Nat × RSt) :=
  if nonInteractive then .error .nonInteractiveMode
  else .ok (st.promptCount,
    { st with promptCount := st.promptCount + 1, trace := .promptE :: st.trace })

/-- 30 days in milliseconds. The TS code computes the expiry cutoff with
Date.setDate(getDate() - 30); the model uses the epoch-arithmetic
equivalent now - 30 days. -/
def thirtyDaysMs : Int := 2592000000

/-- A prompts.Choice of the build list, restricted to its semantic fields:
the carried build (none for the 'None of the above' escape entry) and the
disabled flag that marks expired artifacts. The title is display-only. -/
structure BuildChoice where
  value : Option BuildFragment
  disabled : Bool
deriving DecidableEq, Repr

/-- formatBuildChoice from ArchiveSource.ts: value is the build itself and
disabled is `buildDate < expiryDate` (the expired flag). -/
def formatBuildChoice (b : BuildFragment) (expiryMs : Int) : BuildChoice :=
  { value := some b, disabled := decide (b.updatedAtMs < expiryMs) }

/-- The 'None of the above (select another option)' choice: value null. -/
def escapeChoice : BuildChoice := { value := none, disabled := false }

abbrev ResResult := Except ArchiveError Archive × RSt

/-- The type of the recursive getArchiveAsync call a handler may make. -/
abbrev RecFn := ArchiveSrc → RSt → ResResult

/-- handleUrlSourceAsync: invalid URL recurses as prompt; a build-details URL
triggers askIfUseBuildIdFromUrlAsync (a confirm prompt only when not
non-interactive) and a confirmed answer recurses as buildId; every other
path returns { url, source }. -/
def handleUrlSource (env : ResolveEnv) (rec : RecFn) (s : ArchiveSrc) (st : RSt) : ResResult :=
  if ¬ validateUrl env s.url then rec (promptOf s) st
  else
    match isBuildDetailsPage s.url with
    | some maybeBuildId =>
      if ¬ s.nonInteractive then
        let k := st.promptCount
        let st1 : RSt :=
          { st with promptCount := k + 1, trace := .promptE :: st.trace }
        if env.confirmAnswer k then
          rec { s with sourceType := .buildId, id := maybeBuildId } st1
        else (.ok { url := some s.url, build := none, source := s }, st1)
      else (.ok { url := some s.url, build := none, source := s }, st)
    | none => (.ok { url := some s.url, build := none, source := s }, st)

/-- handleLatestSourceAsync: fetch recent builds (no limit argument), take
the first; none found recurses as prompt; a fetch error is logged and
rethrown (the catch block), never a prompt fallback. -/
def handleLatestSource (env : ResolveEnv) (rec : RecFn) (s : ArchiveSrc) (st : RSt) : ResResult :=
  let st1 : RSt := { st with trace := .fetchRecentE none :: st.trace }
  match env.recentBuilds none with
  | .error e => (.error (.fetchFailed e), st1)
  | .ok builds =>
    match builds.head? with
    | none => rec (promptOf s) st1
    | some latestBuild => (.ok { build := some latestBuild, url := none, source := s }, st1)

/-- handlePathSourceAsync: a missing file recurses as prompt; otherwise the
archive is uploaded and { url: uploadUrl, source } returned (an upload
error propagates, there is no catch). -/
def handlePathSource (env : ResolveEnv) (rec : RecFn) (s : ArchiveSrc) (st : RSt) : ResResult :=
  if ¬ env.isExistingFile s.path then rec (promptOf s) st
  else
    let st1 : RSt := { st with trace := .uploadE s.path :: st.trace }
    match env.uploadAppArchive s.path with
    | .ok uploadUrl => (.ok { url := some uploadUrl, build := none, source := s }, st1)
    | .error e => (.error (.uploadFailed e), st1)

/-- handleBuildIdSourceAsync: fetch by id inside a try block whose catch
recurses as prompt. A platform mismatch recurses as prompt INSIDE the try,
so if that recursion itself throws, the catch catches the error and recurses
as prompt once more (outside the try). -/
def handleBuildIdSource (env : ResolveEnv) (rec : RecFn) (s : ArchiveSrc) (st : RSt) : ResResult :=
  let st1 : RSt := { st with trace := .fetchByIdE s.id :: st.trace }
  let attempt : ResResult :=
    match env.byId s.id with
    | .error e => (.error (.fetchFailed e), st1)
    | .ok build =>
      if build.platform ≠ toAppPlatform s.platform then rec (promptOf s) st1
      else (.ok { build := some build, url := none, source := s }, st1)
  match attempt with
  | (.error _, st2) => rec (promptOf s) st2
  | ok => ok

/-- handleBuildListSourceAsync: fetch up to BUILD_LIST_ITEM_COUNT recent
builds; an empty result or an all-expired result recurses as prompt; else a
select prompt over the formatted choices plus the escape choice; the escape
recurses as prompt, a build choice returns { build, source }. The catch
block rethrows the same error after logging, so errors pass through
unchanged. The scripted answer indexes the choice list (an out-of-range
index is treated like the escape entry; the real prompt layer only returns
offered values). -/
def handleBuildListSource (env : ResolveEnv) (rec : RecFn) (s : ArchiveSrc) (st : RSt) : ResResult :=
  let expiryMs : Int := env.nowMs - thirtyDaysMs
  let st1 : RSt := { st with trace := .fetchRecentE (some BUILD_LIST_ITEM_COUNT) :: st.trace }
  match env.recentBuilds (some BUILD_LIST_ITEM_COUNT) with
  | .error e => (.error (.fetchFailed e), st1)
  | .ok recentBuilds =>
    if recentBuilds.length < 1 then rec (promptOf s) st1
    else if recentBuilds.all (fun b => decide (b.updatedAtMs < expiryMs)) then
      rec (promptOf s) st1
    else
      match promptStep s.nonInteractive st1 with
      | .error e => (.error e, st1)
      | .ok (k, st2) =>
        let choices := recentBuilds.map (fun b => formatBuildChoice b expiryMs) ++ [escapeChoice]
        let selectedBuild : Option BuildFragment :=
          match choices.get? (env.selectBuildAnswer k) with
          | some c => c.value
          | none => none
        match selectedBuild with
        | none => rec (promptOf s) st2
        | some b => (.ok { build := some b, url := none, source := s }, st2)

/-- handlePromptSourceAsync: a select prompt over the four offered variants,
then a validated text prompt for the chosen variant's field, then recursion
into that variant. The switch default (unreachable through the real prompt
layer, which only returns offered values) throws. -/
def handlePromptSource (env : ResolveEnv) (rec : RecFn) (s : ArchiveSrc) (st : RSt) : ResResult :=
  match promptStep s.nonInteractive st with
  | .error e => (.error e, st)
  | .ok (k, st1) =>
    match env.selectSourceAnswer k with
    | .url =>
      match promptStep s.nonInteractive st1 with
      | .error e => (.error e, st1)
      | .ok (k2, st2) => rec { s with sourceType := .url, url := env.urlAnswer k2 } st2
    | .path =>
      match promptStep s.nonInteractive st1 with
      | .error e => (.error e, st1)
      | .ok (k2, st2) => rec { s with sourceType := .path, path := env.pathAnswer k2 } st2
    | .buildList => rec { s with sourceType := .buildList } st1
    | .buildId =>
      match promptStep s.nonInteractive st1 with
      | .error e => (.error e, st1)
      | .ok (k2, st2) => rec { s with sourceType := .buildId, id := env.idAnswer k2 } st2
    | _ => (.error .neverHappen, st1)

/-- Ghost bookkeeping: record the variant a getArchiveAsync call dispatches
on. -/
def logVisit (t : ArchiveSourceType) (st : RSt) : RSt :=
  { st with trace := .visitE t :: st.trace }

/-- getArchiveAsync: the switch over sourceType dispatching to the handlers.
The TS recursion is unbounded; fuel bounds the call depth, the fuelExhausted
error marking the artificial cutoff. -/
def getArchiveGo (env : ResolveEnv) : Nat → ArchiveSrc → RSt → ResResult
  | 0, _, st => (.error .fuelExhausted, st)
  | fuel + 1, s, st =>
    let st1 := logVisit s.sourceType st
    match s.sourceType with
    | .prompt => handlePromptSource env (getArchiveGo env fuel) s st1
    | .url => handleUrlSource env (getArchiveGo env fuel) s st1
    | .latest => handleLatestSource env (getArchiveGo env fuel) s st1
    | .path => handlePathSource env (getArchiveGo env fuel) s st1
    | .buildId => handleBuildIdSource env (getArchiveGo env fuel) s st1
    | .buildList => handleBuildListSource env (getArchiveGo env fuel) s st1

/-- A whole resolution run from an empty state. -/
def getArchiveAsync (env : ResolveEnv) (fuel : Nat) (s : ArchiveSrc) : ResResult :=
  getArchiveGo env fuel s { promptCount := 0, trace := [] }

/- ### Completion polling (waitForBuildEndAsync in build.ts) -/

/-- `build?.status === st` — null snapshots compare false. -/
def statusIs (ob : Option BuildFragment) (st : BuildStatus) : Bool :=
  match ob with
  | some b => b.status == st
  | none => false

/-- `[BuildStatus.Finished, BuildStatus.Errored, BuildStatus.Canceled].includes(status)`. -/
def isStatusTerminal (s : BuildStatus) : Bool :=
  [BuildStatus.finished, BuildStatus.errored, BuildStatus.canceled].contains s

/-- The multi-job filter predicate: a snapshot is terminal when present with a
terminal status; a null (failed-fetch) snapshot is not. -/
def snapTerminal (ob : Option BuildFragment) : Bool :=
  match ob with
  | some b => isStatusTerminal b.status
  | none => false

/-- How one invocation of waitForBuildEndAsync can end. returned carries the
snapshot array handed back; standaloneFailed is `throw new
Error('Standalone build failed!')` (single Errored build without an error
payload); unknownStatus is the single-job default branch's throw; timedOut
is the timeout throw after the loop; fuelOut is an artifact of the
fuel-indexed embedding. -/
inductive WaitOutcome
  | returned (builds : List (Option BuildFragment))
  | standaloneFailed
  | unknownStatus
  | timedOut
  | fuelOut
deriving DecidableEq, Repr

/-- One polling tick's decision over the freshly fetched snapshots: some
outcome exits the loop (return or throw), none continues to the next tick.
The builds.length === 1 branch switches on the single status (spinner text
updates for the non-terminal statuses are display-only); the multi-job
branch returns when all snapshots are Finished, or when all are terminal,
and otherwise only recomputes the displayed counts. -/
def tickStep (builds : List (Option BuildFragment)) : Option WaitOutcome :=
  match builds with
  | [ob] =>
    match ob with
    | some build =>
      match build.status with
      | .finished => some (.returned builds)
      | .new => none
      | .inQueue => none
      | .canceled => some (.returned builds)
      | .inProgress => none
      | .errored =>
        if build.error.isSome then some (.returned builds) else some .standaloneFailed
      | .other => some .unknownStatus
    | none => none
  | _ =>
    if builds.countP (fun ob => statusIs ob .finished) == builds.length then
      some (.returned builds)
    else if builds.countP snapTerminal == builds.length then
      some (.returned builds)
    else none

/-- The polling environment: fetch tick id gives BuildQuery.byIdAsync's
result for that id on that tick, none modelling a swallowed fetch failure. -/
structure WaitEnv where
  fetch : Nat → String → Option BuildFragment

/-- The while loop of waitForBuildEndAsync.. Time model: fetching and
processing are instantaneous, so wall-clock time advances only across the
inter-tick sleep; tick k then starts at k * intervalMs. The TS loop records
`time` AFTER the tick's processing and BEFORE the sleep, so the `time <=
endTime` guard before tick k compares the (stale) value (k-1) * intervalMs
(0 for the first tick). The second component of the result is the tick index
at exit; both a return during tick k and the timeout throw reached after the
sleep of tick k-1 happen at wall-clock k * intervalMs. -/
def waitLoopGo (env : WaitEnv) (buildIds : List String) (intervalMs endTimeMs : Nat) :
    Nat → Nat → WaitOutcome × Nat
  | 0, k => (.fuelOut, k)
  | fuel + 1, k =>
    let checkTime : Nat := (k - 1) * intervalMs
    if endTimeMs < checkTime then (.timedOut, k)
    else
      match tickStep (buildIds.map (env.fetch k)) with
      | some out => (out, k)
      | none => waitLoopGo env buildIds intervalMs endTimeMs fuel (k + 1)

/-- waitForBuildEndAsync(buildIds, { timeoutSec = 3600, intervalSec = 30 }):
endTime = start + timeoutSec * 1000, one fetch-all per tick. -/
def waitForBuildEnd (env : WaitEnv) (buildIds : List String)
    (timeoutSec intervalSec : Nat) (fuel : Nat) : WaitOutcome × Nat :=
  waitLoopGo env buildIds (intervalSec * 1000) (timeoutSec * 1000) fuel 0

/-- Wall-clock milliseconds elapsed at exit tick k under the instant-fetch
time model. -/
def elapsedMsAt (intervalSec k : Nat) : Nat := k * (intervalSec * 1000)

/- ### Project upload cleanup (uploadProjectAsync in build.ts) -/

/-- The local filesystem as the set of file paths on disk; the project
tarball is the only locally owned mutable resource of the step. -/
structure FsSt where
  files : List String
deriving DecidableEq, Repr

/-- fs.remove(path). -/
def fsRemove (p : String) (fs : FsSt) : FsSt :=
  { files := fs.files.filter (fun q => q ≠ p) }

/-- Environment of uploadProjectAsync. makeTarball is
makeProjectTarballAsync from build/utils/repository.ts — modelled from the
spec: "materialize the project source: package a local tarball"; on success
the tarball file (path, size) exists on disk, on failure no tarball file was
produced. upload is uploadAsync from uploads.ts (path to bucketKey), whose
failure is a network failure. The withAnalyticsAsync wrapper only emits
telemetry (out of scope per the spec) and rethrows, so it is transparent
here. -/
structure UploadEnv where
  makeTarball : Except String (String × Nat)
  upload : String → Except String String

/-- uploadProjectAsync: inside try, make the tarball (recording its path in
projectTarballPath), upload it, return the bucketKey; the finally block
removes the tarball file whenever the path was recorded, on success and on
error alike. -/
def uploadProjectAsync (env : UploadEnv) (fs0 : FsSt) : Except String String × FsSt :=
  let attempt : Except String String × Option String × FsSt :=
    match env.makeTarball with
    | .error e => (.error e, none, fs0)
    | .ok (path, _size) =>
      let fs1 : FsSt := { files := path :: fs0.files }
      match env.upload path with
      | .ok bucketKey => (.ok bucketKey, some path, fs1)
      | .error e => (.error e, some path, fs1)
  match attempt with
  | (res, some path, fs) => (res, fsRemove path fs)
  | (res, none, fs) => (res, fs)

/- ### Predicates used by the claims -/

/-- The per-variant archive shape: url/path results carry a url and no build
reference, latest/buildId/buildList results carry a build reference and no
url, and no archive is produced with the prompt tag itself. -/
def archiveShapeOk (a : Archive) : Prop :=
  match a.source.sourceType with
  | .url => a.build = none ∧ ∃ u, a.url = some u
  | .path => a.build = none ∧ ∃ u, a.url = some u
  | .latest => a.url = none ∧ ∃ b, a.build = some b
  | .buildId => a.url = none ∧ ∃ b, a.build = some b
  | .buildList => a.url = none ∧ ∃ b, a.build = some b
  | .prompt => False

/-- Validation of the supplied reference fails, per variant: an invalid URL,
a missing path, a build id that does not resolve or resolves to the wrong
platform, an empty recent-build list (latest), or an empty or fully expired
recent-build list (buildList). -/
def validationFails (env : ResolveEnv) (s : ArchiveSrc) : Prop :=
  match s.sourceType with
  | .url => validateUrl env s.url = false
  | .path => env.isExistingFile s.path = false
  | .buildId =>
    (∃ e, env.byId s.id = .error e) ∨
    (∃ b, env.byId s.id = .ok b ∧ b.platform ≠ toAppPlatform s.platform)
  | .latest => env.recentBuilds none = .ok []
  | .buildList =>
    ∃ bs, env.recentBuilds (some BUILD_LIST_ITEM_COUNT) = .ok bs ∧
      (bs = [] ∨ bs.all (fun b => decide (b.updatedAtMs < env.nowMs - thirtyDaysMs)) = true)
  | .prompt => False

/- ### Concrete fixtures for witnesses and counterexamples -/

/-- An environment whose URL parser rejects everything (an invalid URL). -/
def cexEnv : ResolveEnv := {
  parseURL := fun _ => none,
  byId := fun _ => .error "nf",
  recentBuilds := fun _ => .ok [],
  isExistingFile := fun _ => false,
  uploadAppArchive := fun _ => .ok "u",
  nowMs := 1700000000000,
  confirmAnswer := fun _ => true,
  selectSourceAnswer := fun _ => .url,
  selectBuildAnswer := fun _ => 0,
  urlAnswer := fun _ => "x",
  pathAnswer := fun _ => "x",
  idAnswer := fun _ => "x" }

/-- A non-interactive url intent whose URL is invalid. -/
def cexSrc : ArchiveSrc := {
  sourceType := .url, platform := .android, projectId := "p",
  nonInteractive := true, url := "not-a-url", path := "", id := "" }

def finSnapshot : BuildFragment :=
  { id := "bf", platform := .android, status := .finished, error := none, updatedAtMs := 0 }

def canSnapshot : BuildFragment :=
  { id := "bc", platform := .android, status := .canceled, error := none, updatedAtMs := 0 }

def erroredNoPayload : BuildFragment :=
  { id := "be", platform := .android, status := .errored, error := none, updatedAtMs := 0 }

def erroredWithPayload : BuildFragment :=
  { id := "bp", platform := .android, status := .errored, error := some "boom", updatedAtMs := 0 }

def unknownStatusSnapshot : BuildFragment :=
  { id := "bu", platform := .android, status := .other, error := none, updatedAtMs := 0 }

def inProgressSnapshot : BuildFragment :=
  { id := "bi", platform := .android, status := .inProgress, error := none, updatedAtMs := 0 }

/-- Every fetch yields an Errored snapshot without error payload. -/
def erroredWaitEnv : WaitEnv := { fetch := fun _ _ => some erroredNoPayload }

/-- Job a is Errored without payload, every other job Finished. -/
def mixedWaitEnv : WaitEnv :=
  { fetch := fun _ i => if i == "a" then some erroredNoPayload else some finSnapshot }

/-- Job a carries an unrecognized status, every other job Finished. -/
def unknownWaitEnv : WaitEnv :=
  { fetch := fun _ i => if i == "a" then some unknownStatusSnapshot else some finSnapshot }

/-- Every fetch yields an InProgress snapshot: the jobs never terminate. -/
def stuckWaitEnv : WaitEnv := { fetch := fun _ _ => some inProgressSnapshot }

/-- Every fetch yields a Finished snapshot. -/
def finishedWaitEnv : WaitEnv := { fetch := fun _ _ => some finSnapshot }

/-- A catalog with a single (latest) build. -/
def latestEnv : ResolveEnv := { cexEnv with recentBuilds := fun _ => .ok [finSnapshot] }

def latestSrc : ArchiveSrc := {
  sourceType := .latest, platform := .android, projectId := "p",
  nonInteractive := false, url := "", path := "", id := "" }

/-- A catalog whose fetch itself fails. -/
def fetchErrEnv : ResolveEnv := { cexEnv with recentBuilds := fun _ => .error "boom" }

/-- A fresh build (updated now) and a stale build (updated 40 days ago),
against nowMs of cexEnv. -/
def freshBuild : BuildFragment :=
  { id := "fresh", platform := .android, status := .finished, error := none,
    updatedAtMs := 1700000000000 }

def staleBuild : BuildFragment :=
  { id := "stale", platform := .android, status := .finished, error := none,
    updatedAtMs := 1700000000000 - 3456000000 }

/-- Catalog with one fresh and one stale build; the scripted selection picks
the first choice. -/
def buildListEnv : ResolveEnv :=
  { cexEnv with recentBuilds := fun _ => .ok [freshBuild, staleBuild] }

def buildListSrc : ArchiveSrc := {
  sourceType := .buildList, platform := .android, projectId := "p",
  nonInteractive := false, url := "", path := "", id := "" }

/-- The build-details-page URL of the spec's example scenario. -/
def detailsUrl : String :=
  "https://expo.dev/accounts/x/projects/y/builds/3fa85f64-5717-4562-b3fc-2c963f66afa6"

def detailsUuid : String := "3fa85f64-5717-4562-b3fc-2c963f66afa6"

/-- URL parsing succeeds with an https protocol; the confirm prompt answers
no (decline). -/
def urlDetailsEnv : ResolveEnv :=
  { cexEnv with
    parseURL := fun _ => some { protocol := "https:" },
    confirmAnswer := fun _ => false }

def urlDetailsSrc : ArchiveSrc := {
  sourceType := .url, platform := .android, projectId := "p",
  nonInteractive := false, url := detailsUrl, path := "", id := "" }

/-- Tarball creation succeeds, the upload fails with a network error. -/
def uploadNetFailEnv : UploadEnv :=
  { makeTarball := .ok ("project.tar.gz", 10), upload := fun _ => .error "network" }

/- ### Theorems -/

/-- C9: on every exit path of the project-upload step — successful upload,
tarball-creation failure, or network failure — the temporary project tarball
file is removed before the step returns or propagates its error (a failed
tarball creation produces no file, per the spec-modelled collaborator, so
the state is then left untouched). -/
theorem upload_project_tarball_released (env : UploadEnv) (fs0 : FsSt) :
    (∀ path size, env.makeTarball = .ok (path, size) →
      path ∉ (uploadProjectAsync env fs0).2.files) ∧
    (∀ e, env.makeTarball = .error e → (uploadProjectAsync env fs0).2 = fs0) := by
  constructor
  · intro path size hmk
    cases hup : env.upload path <;>
      simp [uploadProjectAsync, hmk, hup, fsRemove, List.mem_filter]
  · intro e hmk
    simp [uploadProjectAsync, hmk]

/-- C9 witness: with a tarball at project.tar.gz and a failing network
upload, the tarball is gone from the filesystem after the step. -/
theorem upload_project_tarball_released_witness :
    "project.tar.gz" ∉ (uploadProjectAsync uploadNetFailEnv { files := [] }).2.files :=
  (upload_project_tarball_released uploadNetFailEnv { files := [] }).1 "project.tar.gz" 10 rfl

/-- C1 counterexample: with a non-interactive url intent whose URL is
invalid, resolution does NOT fail before falling back — the run's trace
visits the Interactive (prompt) variant, refuting "fails immediately ...
instead of recursing into the Interactive variant"; the failure is raised
within that variant by the prompt layer. -/
theorem nonInteractive_fallback_enters_prompt_cex :
    EffectE.visitE .prompt ∈ (getArchiveAsync cexEnv 5 cexSrc).2.trace ∧
    (getArchiveAsync cexEnv 5 cexSrc).1 = .error .nonInteractiveMode := by
  exact ⟨by decide, rfl⟩

/-- C2 counterexample: a single job whose snapshot is Errored without an
error payload is terminal, yet single-job tracking throws (standalone build
failure) instead of returning, while the same snapshots under multi-job
tracking make the loop return — the one-job and many-job termination logic
are not identical. -/
theorem single_multi_termination_differs_cex :
    (waitForBuildEnd erroredWaitEnv ["a"] 3600 30 10).1 = .standaloneFailed ∧
    snapTerminal (some erroredNoPayload) = true ∧
    (waitForBuildEnd erroredWaitEnv ["a", "b"] 3600 30 10).1 =
      .returned [some erroredNoPayload, some erroredNoPayload] := by
  exact ⟨rfl, rfl, rfl⟩

/-- C3 counterexample: under multi-job tracking an Errored snapshot without
error payload does not raise — the loop returns when all jobs are terminal;
and an unrecognized status does not raise — the loop keeps polling until the
timeout. -/
theorem multi_mode_errored_no_payload_returns_cex :
    (waitForBuildEnd mixedWaitEnv ["a", "b"] 3600 30 10).1 =
      .returned [some erroredNoPayload, some finSnapshot] ∧
    (waitForBuildEnd unknownWaitEnv ["a", "b"] 60 30 10).1 = .timedOut := by
  exact ⟨rfl, rfl⟩

/-- C5 counterexample: a job stuck InProgress with timeoutSec = 60 and
intervalSec = 30 times out only at 120 s of wall clock — more than one
intervalSec past the configured timeout (90 s would be the claimed bound). -/
theorem timeout_exceeds_one_interval_cex :
    (waitForBuildEnd stuckWaitEnv ["a"] 60 30 10).1 = .timedOut ∧
    elapsedMsAt 30 (waitForBuildEnd stuckWaitEnv ["a"] 60 30 10).2 = 120000 ∧
    ¬ elapsedMsAt 30 (waitForBuildEnd stuckWaitEnv ["a"] 60 30 10).2 ≤ 60 * 1000 + 30 * 1000 := by
  exact ⟨rfl, rfl, by decide⟩

/-- Helper: a snapshot counted as Finished is in particular terminal. -/
lemma snapTerminal_of_finished (ob : Option BuildFragment)
    (h : statusIs ob .finished = true) : snapTerminal ob = true := by
  cases ob with
  | none => simp [statusIs] at h
  | some b =>
    simp only [statusIs, beq_iff_eq] at h
    simp [snapTerminal, isStatusTerminal, h]

/-- C2 (amended): single-job and multi-job tracking share their termination
logic PROVIDED every fetched snapshot carries one of the six known statuses
and every Errored snapshot carries an error payload; under that proviso a
tick exits with the snapshot array exactly when every slot is terminal, and
only the displayed status text differs. The proviso is necessary: a single
Errored snapshot without payload throws, and a single unknown status throws,
where multi-job tracking returns or keeps polling respectively. -/
theorem tick_termination_agrees_on_known_statuses
    (builds : List (Option BuildFragment))
    (hknown : ∀ b : BuildFragment, some b ∈ builds → b.status ≠ .other)
    (herr : ∀ b : BuildFragment, some b ∈ builds → b.status = .errored → b.error.isSome = true) :
    tickStep builds = if builds.all snapTerminal then some (.returned builds) else none := by
  match builds with
  | [] => rfl
  | [ob] =>
    cases ob with
    | none => rfl
    | some b =>
      have hk := hknown b (by simp)
      have he := herr b (by simp)
      cases hstatus : b.status <;>
        simp_all [tickStep, snapTerminal, isStatusTerminal]
  | a :: b :: t =>
    by_cases hall : (a :: b :: t).all snapTerminal = true
    · rw [if_pos hall]
      by_cases hfin :
          (a :: b :: t).countP (fun ob => statusIs ob .finished) = (a :: b :: t).length
      · simp [tickStep, hfin]
      · have hterm : (a :: b :: t).countP snapTerminal = (a :: b :: t).length :=
          List.countP_eq_length.mpr (List.all_eq_true.mp hall)
        simp [tickStep, hfin, hterm]
    · rw [if_neg hall]
      have hterm : ¬ (a :: b :: t).countP snapTerminal = (a :: b :: t).length := by
        intro hc
        exact hall (List.all_eq_true.mpr (List.countP_eq_length.mp hc))
      have hfin :
          ¬ (a :: b :: t).countP (fun ob => statusIs ob .finished) = (a :: b :: t).length := by
        intro hc
        exact hall (List.all_eq_true.mpr
          (fun x hx => snapTerminal_of_finished x (List.countP_eq_length.mp hc x hx)))
      have hfin2 : ¬ (((a :: b :: t).countP (fun ob => statusIs ob .finished) ==
          (a :: b :: t).length) = true) := by simpa using hfin
      have hterm2 : ¬ (((a :: b :: t).countP snapTerminal == (a :: b :: t).length) = true) := by
        simpa using hterm
      simp only [tickStep]
      rw [if_neg hfin2, if_neg hterm2]

/-- C2 witness: two known terminal snapshots make the multi-job tick return
the snapshot array. -/
theorem tick_termination_agrees_witness :
    tickStep [some finSnapshot, some canSnapshot] =
      some (.returned [some finSnapshot, some canSnapshot]) := by
  have h := tick_termination_agrees_on_known_statuses [some finSnapshot, some canSnapshot]
    (by intro b hb; simp at hb; rcases hb with rfl | rfl <;> decide)
    (by intro b hb; simp at hb; rcases hb with rfl | rfl <;> decide)
  simpa using h

/-- C3 (amended): in single-job tracking an Errored snapshot with an error
payload makes the loop return, one without a payload raises the
standalone-build failure, and an unrecognized status raises immediately;
but in multi-job tracking (any job count other than one) a tick never
raises — it either continues or returns the snapshots, so an Errored
snapshot without payload or an unknown status never aborts the other jobs
there. -/
theorem errored_and_unknown_snapshot_behavior :
    (∀ b : BuildFragment, b.status = .errored → b.error.isSome = true →
      tickStep [some b] = some (.returned [some b])) ∧
    (∀ b : BuildFragment, b.status = .errored → b.error = none →
      tickStep [some b] = some .standaloneFailed) ∧
    (∀ b : BuildFragment, b.status = .other → tickStep [some b] = some .unknownStatus) ∧
    (∀ builds : List (Option BuildFragment), builds.length ≠ 1 →
      tickStep builds = none ∨ tickStep builds = some (.returned builds)) := by
  refine ⟨?_, ?_, ?_, ?_⟩
  · intro b h1 h2
    simp [tickStep, h1, h2]
  · intro b h1 h2
    simp [tickStep, h1, h2]
  · intro b h1
    simp [tickStep, h1]
  · intro builds hlen
    match builds with
    | [] => right; rfl
    | [ob] => exact absurd rfl hlen
    | a :: b :: t =>
      by_cases hfin :
          (a :: b :: t).countP (fun ob => statusIs ob .finished) = (a :: b :: t).length
      · right; simp [tickStep, hfin]
      · by_cases hterm : (a :: b :: t).countP snapTerminal = (a :: b :: t).length
        · right; simp [tickStep, hfin, hterm]
        · left
          have hfin2 : ¬ (((a :: b :: t).countP (fun ob => statusIs ob .finished) ==
              (a :: b :: t).length) = true) := by simpa using hfin
          have hterm2 : ¬ (((a :: b :: t).countP snapTerminal ==
              (a :: b :: t).length) = true) := by simpa using hterm
          simp only [tickStep]
          rw [if_neg hfin2, if_neg hterm2]

/-- C3 witness: the three single-job behaviors at concrete snapshots. -/
theorem errored_and_unknown_snapshot_behavior_witness :
    tickStep [some erroredWithPayload] = some (.returned [some erroredWithPayload]) ∧
    tickStep [some erroredNoPayload] = some .standaloneFailed ∧
    tickStep [some unknownStatusSnapshot] = some .unknownStatus :=
  ⟨errored_and_unknown_snapshot_behavior.1 erroredWithPayload rfl rfl,
   errored_and_unknown_snapshot_behavior.2.1 erroredNoPayload rfl rfl,
   errored_and_unknown_snapshot_behavior.2.2.1 unknownStatusSnapshot rfl⟩

/-- Helper: whenever a tick exits with a returned outcome, the payload is the
snapshot array of that very tick. -/
lemma tickStep_returned_eq {l bs : List (Option BuildFragment)}
    (h : tickStep l = some (.returned bs)) : bs = l := by
  match l with
  | [] =>
    simp [tickStep] at h
    first
    | exact h
    | exact h.symm
  | [ob] =>
    cases ob with
    | none => simp [tickStep] at h
    | some b =>
      cases hstatus : b.status with
      | finished =>
        simp [tickStep, hstatus] at h
        first
        | exact h
        | exact h.symm
      | canceled =>
        simp [tickStep, hstatus] at h
        first
        | exact h
        | exact h.symm
      | errored =>
        rcases hE : b.error with _ | e
        · simp [tickStep, hstatus, hE] at h
        · simp [tickStep, hstatus, hE] at h
          first
          | exact h
          | exact h.symm
      | new => simp [tickStep, hstatus] at h
      | inQueue => simp [tickStep, hstatus] at h
      | inProgress => simp [tickStep, hstatus] at h
      | other => simp [tickStep, hstatus] at h
  | a :: b :: t =>
    by_cases hfin :
        (a :: b :: t).countP (fun ob => statusIs ob .finished) = (a :: b :: t).length
    · simp [tickStep, hfin] at h
      first
      | exact h
      | exact h.symm
    · by_cases hterm : (a :: b :: t).countP snapTerminal = (a :: b :: t).length
      · simp [tickStep, hfin, hterm] at h
        first
        | exact h
        | exact h.symm
      · have hfin2 : ¬ (((a :: b :: t).countP (fun ob => statusIs ob .finished) ==
            (a :: b :: t).length) = true) := by simpa using hfin
        have hterm2 : ¬ (((a :: b :: t).countP snapTerminal ==
            (a :: b :: t).length) = true) := by simpa using hterm
        simp only [tickStep] at h
        rw [if_neg hfin2, if_neg hterm2] at h
        exact absurd h (by simp)

/-- C4: whenever the polling loop returns normally it hands back exactly one
slot per input build id, preserving input order: slot i is the snapshot
fetched for the i-th id on the final (exit) tick, null when that fetch
failed. -/
theorem returned_snapshots_match_input_order
    (env : WaitEnv) (buildIds : List String) (intervalMs endTimeMs : Nat) :
    ∀ (fuel k0 kexit : Nat) (bs : List (Option BuildFragment)),
      waitLoopGo env buildIds intervalMs endTimeMs fuel k0 = (.returned bs, kexit) →
      bs = buildIds.map (env.fetch kexit) ∧
      bs.length = buildIds.length ∧
      ∀ i (hi : i < buildIds.length),
        bs.get? i = some (env.fetch kexit (buildIds.get ⟨i, hi⟩)) := by
  intro fuel
  induction fuel with
  | zero =>
    intro k0 kexit bs h
    simp [waitLoopGo] at h
  | succ n ih =>
    intro k0 kexit bs h
    rw [waitLoopGo] at h
    split at h
    · simp at h
    · split at h
      · rename_i out hout
        obtain ⟨h1, h2⟩ := Prod.mk.injEq .. |>.mp h
        subst h2
        subst h1
        have hbs := tickStep_returned_eq hout
        subst hbs
        refine ⟨rfl, by simp, ?_⟩
        intro i hi
        rw [List.get?_map, List.get?_eq_get hi]
        rfl
      · exact ih _ _ _ h

/-- C4 witness: two finished jobs return one slot per id, in order. -/
theorem returned_snapshots_match_input_order_witness :
    [some finSnapshot, some finSnapshot] = (["a", "b"].map (finishedWaitEnv.fetch 0)) ∧
    ([some finSnapshot, some finSnapshot] : List (Option BuildFragment)).length =
      (["a", "b"] : List String).length :=
  ⟨(returned_snapshots_match_input_order finishedWaitEnv ["a", "b"] 30000 3600000 5 0 0
      [some finSnapshot, some finSnapshot] rfl).1,
   (returned_snapshots_match_input_order finishedWaitEnv ["a", "b"] 30000 3600000 5 0 0
      [some finSnapshot, some finSnapshot] rfl).2.1⟩

/-- Helper: a tick decision never produces the timedOut outcome — timeouts
come only from the loop guard. -/
lemma tickStep_ne_timedOut (l : List (Option BuildFragment)) :
    tickStep l ≠ some .timedOut := by
  match l with
  | [] => simp [tickStep]
  | [ob] =>
    cases ob with
    | none => simp [tickStep]
    | some b =>
      cases hstatus : b.status <;> simp [tickStep, hstatus]
      split <;> simp
  | a :: b :: t =>
    simp only [tickStep]
    split
    · simp
    · split <;> simp

/-- Helper: with permanently non-terminal snapshots the loop, entered at any
tick k within the stale-check window, exits with the timeout exactly at tick
Tms / Ims + 2 (written with the quotient generalized to d). -/
lemma waitLoopGo_stuck_timedOut (env : WaitEnv) (ids : List String) (Ims Tms d : Nat)
    (hI : 1 ≤ Ims) (hd : d = Tms / Ims)
    (hstuck : ∀ k, tickStep (ids.map (env.fetch k)) = none) :
    ∀ fuel k, k ≤ d + 2 → d + 2 - k < fuel →
      waitLoopGo env ids Ims Tms fuel k = (.timedOut, d + 2) := by
  intro fuel
  induction fuel with
  | zero =>
    intro k hk hf
    omega
  | succ n ih =>
    intro k hk hf
    rw [waitLoopGo]
    by_cases hend : k = d + 2
    · subst hend
      have hgt : Tms < (d + 2 - 1) * Ims := by
        have h1 : d + 2 - 1 = Tms / Ims + 1 := by omega
        rw [h1]
        exact (Nat.div_lt_iff_lt_mul (show 0 < Ims by omega)).mp (Nat.lt_succ_self _)
      rw [if_pos hgt]
    · have hle : ¬ Tms < (k - 1) * Ims := by
        have hk1 : k - 1 ≤ Tms / Ims := by omega
        have hmul : (k - 1) * Ims ≤ Tms / Ims * Ims :=
          Nat.mul_le_mul_right Ims hk1
        exact Nat.not_lt.mpr (hmul.trans (Nat.div_mul_le_self Tms Ims))
      rw [if_neg hle, hstuck k]
      exact ih (k + 1) (by omega) (by omega)

/-- Helper: the loop raises the timeout only when the stale timestamp it
checked — the recorded end of the last completed tick — already exceeded
the window; in particular never on the first check. -/
lemma waitLoopGo_timedOut_exceeded (env : WaitEnv) (ids : List String) (Ims Tms : Nat) :
    ∀ fuel k j, waitLoopGo env ids Ims Tms fuel k = (.timedOut, j) →
      1 ≤ j ∧ Tms < (j - 1) * Ims := by
  intro fuel
  induction fuel with
  | zero =>
    intro k j h
    simp [waitLoopGo] at h
  | succ n ih =>
    intro k j h
    rw [waitLoopGo] at h
    split at h
    · rename_i hgt
      obtain ⟨h1, h2⟩ := Prod.mk.injEq .. |>.mp h
      have hk1 : 1 ≤ k := by
        rcases k with _ | k2
        · rw [Nat.zero_sub, Nat.zero_mul] at hgt
          omega
        · omega
      exact h2 ▸ ⟨hk1, hgt⟩
    · split at h
      · rename_i out hout
        obtain ⟨h1, h2⟩ := Prod.mk.injEq .. |>.mp h
        subst h1
        exact absurd hout (tickStep_ne_timedOut _)
      · exact ih _ _ h

/-- C5 (amended): with jobs that never reach a terminal status the loop
raises the timeout fault, but — because the guard compares a timestamp
recorded BEFORE the final inter-tick sleep — under the instant-fetch time
model the raise lands strictly MORE than one intervalSec past the configured
timeout, and at most two intervalSec past it; a timeout is only ever raised
after the recorded time of the last completed tick already exceeded the
window. -/
theorem timeout_raise_within_two_intervals
    (env : WaitEnv) (ids : List String) (timeoutSec intervalSec fuel : Nat)
    (hI : 1 ≤ intervalSec)
    (hstuck : ∀ k, tickStep (ids.map (env.fetch k)) = none)
    (hfuel : timeoutSec * 1000 / (intervalSec * 1000) + 3 ≤ fuel) :
    (waitForBuildEnd env ids timeoutSec intervalSec fuel).1 = .timedOut ∧
    timeoutSec * 1000 + intervalSec * 1000 <
      elapsedMsAt intervalSec (waitForBuildEnd env ids timeoutSec intervalSec fuel).2 ∧
    elapsedMsAt intervalSec (waitForBuildEnd env ids timeoutSec intervalSec fuel).2 ≤
      timeoutSec * 1000 + 2 * (intervalSec * 1000) ∧
    (∀ f k j,
      waitLoopGo env ids (intervalSec * 1000) (timeoutSec * 1000) f k = (.timedOut, j) →
      timeoutSec * 1000 < (j - 1) * (intervalSec * 1000)) := by
  have hI2 : 1 ≤ intervalSec * 1000 := by omega
  obtain ⟨d, hd⟩ : ∃ d, d = timeoutSec * 1000 / (intervalSec * 1000) := ⟨_, rfl⟩
  rw [← hd] at hfuel
  have hrun := waitLoopGo_stuck_timedOut env ids (intervalSec * 1000) (timeoutSec * 1000) d
    hI2 hd hstuck fuel 0 (by omega) (by omega)
  have hres : waitForBuildEnd env ids timeoutSec intervalSec fuel = (.timedOut, d + 2) := hrun
  have hmod : d * (intervalSec * 1000) + timeoutSec * 1000 % (intervalSec * 1000) =
      timeoutSec * 1000 := by
    rw [hd, Nat.mul_comm]
    exact Nat.div_add_mod (timeoutSec * 1000) (intervalSec * 1000)
  have hlt := Nat.mod_lt (timeoutSec * 1000) (show 0 < intervalSec * 1000 by omega)
  have hexp : (d + 2) * (intervalSec * 1000) =
      d * (intervalSec * 1000) + 2 * (intervalSec * 1000) := by ring
  refine ⟨by rw [hres], ?_, ?_, ?_⟩
  · rw [hres]
    simp only [elapsedMsAt]
    omega
  · rw [hres]
    simp only [elapsedMsAt]
    omega
  · intro f k j h
    exact (waitLoopGo_timedOut_exceeded env ids (intervalSec * 1000) (timeoutSec * 1000)
      f k j h).2

/-- C5 witness: the stuck single job with timeoutSec 60 and intervalSec 30
times out, strictly later than 90 s of wall clock. -/
theorem timeout_raise_within_two_intervals_witness :
    (waitForBuildEnd stuckWaitEnv ["a"] 60 30 10).1 = .timedOut ∧
    60 * 1000 + 30 * 1000 <
      elapsedMsAt 30 (waitForBuildEnd stuckWaitEnv ["a"] 60 30 10).2 :=
  ⟨(timeout_raise_within_two_intervals stuckWaitEnv ["a"] 60 30 10 (by omega)
      (fun _ => rfl) (by decide)).1,
   (timeout_raise_within_two_intervals stuckWaitEnv ["a"] 60 30 10 (by omega)
      (fun _ => rfl) (by decide)).2.1⟩

/-- C10: when the remote catalog fetch itself throws during UseLatest
(latest) or ListRecent (buildList) resolution, getArchiveAsync logs and
rethrows that very error — the full result state shows no prompt recursion
and no fallback; the interactive fallback in those branches applies only to
successful fetches with no usable builds. -/
theorem catalog_fetch_error_rethrown
    (env : ResolveEnv) (s : ArchiveSrc) (st : RSt) (fuel : Nat) (e : String) :
    (s.sourceType = .latest → env.recentBuilds none = .error e →
      getArchiveGo env (fuel + 1) s st =
        (.error (.fetchFailed e),
         { st with trace := .fetchRecentE none :: .visitE .latest :: st.trace })) ∧
    (s.sourceType = .buildList → env.recentBuilds (some BUILD_LIST_ITEM_COUNT) = .error e →
      getArchiveGo env (fuel + 1) s st =
        (.error (.fetchFailed e),
         { st with trace := .fetchRecentE (some BUILD_LIST_ITEM_COUNT) ::
             .visitE .buildList :: st.trace })) := by
  obtain ⟨ty, pl, pid, ni, u, pa, i⟩ := s
  constructor
  · intro hty hre
    simp only at hty
    subst hty
    simp [getArchiveGo, handleLatestSource, logVisit, hre]
  · intro hty hre
    simp only at hty
    subst hty
    simp [getArchiveGo, handleBuildListSource, logVisit, hre]

/-- C10 witness: a failing catalog makes latest resolution rethrow the error
without any prompt fallback. -/
theorem catalog_fetch_error_rethrown_witness :
    getArchiveGo fetchErrEnv 3 latestSrc { promptCount := 0, trace := [] } =
      (.error (.fetchFailed "boom"),
       { promptCount := 0, trace := [.fetchRecentE none, .visitE .latest] }) :=
  (catalog_fetch_error_rethrown fetchErrEnv latestSrc { promptCount := 0, trace := [] } 2
    "boom").1 rfl rfl

/-- C8: for a valid http(s) URL that the build-details-page pattern
recognizes with an embedded v4-UUID id, url resolution detects the id; when
not non-interactive it asks for confirmation — confirming recurses as
buildId with that id (and, when the id then resolves on the requested
platform, yields an Archive referencing that job), declining returns the
literal URL as the archive; in non-interactive mode no prompt is shown and
the literal URL is returned. -/
theorem url_build_details_confirmation_behavior
    (env : ResolveEnv) (s : ArchiveSrc) (st : RSt) (fuel : Nat) (bid : String)
    (hty : s.sourceType = .url)
    (hvalid : validateUrl env s.url = true)
    (hpage : isBuildDetailsPage s.url = some bid) :
    (s.nonInteractive = false → env.confirmAnswer st.promptCount = true →
      getArchiveGo env (fuel + 1) s st =
        getArchiveGo env fuel { s with sourceType := .buildId, id := bid }
          { promptCount := st.promptCount + 1,
            trace := .promptE :: .visitE .url :: st.trace }) ∧
    (s.nonInteractive = false → env.confirmAnswer st.promptCount = false →
      getArchiveGo env (fuel + 1) s st =
        (.ok { build := none, source := s, url := some s.url },
         { promptCount := st.promptCount + 1,
           trace := .promptE :: .visitE .url :: st.trace })) ∧
    (s.nonInteractive = true →
      getArchiveGo env (fuel + 1) s st =
        (.ok { build := none, source := s, url := some s.url }, logVisit .url st)) ∧
    (∀ b m, fuel = m + 1 → s.nonInteractive = false →
      env.confirmAnswer st.promptCount = true →
      env.byId bid = .ok b → b.platform = toAppPlatform s.platform →
      (getArchiveGo env (fuel + 1) s st).1 =
        .ok { build := some b,
              source := { s with sourceType := .buildId, id := bid },
              url := none }) := by
  obtain ⟨ty, pl, pid, ni, u, pa, i⟩ := s
  simp only at hty hvalid hpage
  subst hty
  refine ⟨?_, ?_, ?_, ?_⟩
  · intro hni hconf
    simp only at hni
    subst hni
    simp [getArchiveGo, handleUrlSource, logVisit, hvalid, hpage, hconf]
  · intro hni hconf
    simp only at hni
    subst hni
    simp [getArchiveGo, handleUrlSource, logVisit, hvalid, hpage, hconf]
  · intro hni
    simp only at hni
    subst hni
    simp [getArchiveGo, handleUrlSource, logVisit, hvalid, hpage]
  · intro b m hm hni hconf hbid hplat
    simp only at hni hplat
    subst hni
    subst hm
    simp [getArchiveGo, handleUrlSource, handleBuildIdSource, logVisit,
      hvalid, hpage, hconf, hbid, hplat]

/-- C8 witness: the spec's example build-details URL is detected (its capture
group is the embedded v4 UUID) and declining the confirmation returns the
literal URL as the archive. -/
theorem url_build_details_confirmation_behavior_witness :
    validateUrl urlDetailsEnv urlDetailsSrc.url = true ∧
    isBuildDetailsPage urlDetailsSrc.url = some detailsUuid ∧
    getArchiveGo urlDetailsEnv 3 urlDetailsSrc { promptCount := 0, trace := [] } =
      (.ok { build := none, source := urlDetailsSrc, url := some urlDetailsSrc.url },
       { promptCount := 1, trace := [.promptE, .visitE .url] }) :=
  ⟨rfl, by decide,
   (url_build_details_confirmation_behavior urlDetailsEnv urlDetailsSrc
      { promptCount := 0, trace := [] } 2 detailsUuid rfl rfl (by decide)).2.1 rfl rfl⟩

/-- C7: buildList resolution fetches recent builds with the fixed limit
BUILD_LIST_ITEM_COUNT = 4; an empty result, and likewise a result whose
every build is older than the 30-day cutoff, recurses as the Interactive
(prompt) variant; otherwise the formatted choices plus the escape entry are
offered — picking the escape recurses as Interactive, while picking any
offered build (expired ones included) returns the archive referencing it;
a build's choice is flagged disabled exactly when it is older than the
cutoff. -/
theorem build_list_resolution_behavior
    (env : ResolveEnv) (s : ArchiveSrc) (st : RSt) (fuel : Nat)
    (bs : List BuildFragment)
    (hty : s.sourceType = .buildList)
    (hni : s.nonInteractive = false)
    (hfetch : env.recentBuilds (some BUILD_LIST_ITEM_COUNT) = .ok bs) :
    BUILD_LIST_ITEM_COUNT = 4 ∧
    (bs = [] →
      getArchiveGo env (fuel + 1) s st =
        getArchiveGo env fuel (promptOf s)
          { st with trace := .fetchRecentE (some BUILD_LIST_ITEM_COUNT) ::
              .visitE .buildList :: st.trace }) ∧
    (bs.all (fun b => decide (b.updatedAtMs < env.nowMs - thirtyDaysMs)) = true →
      getArchiveGo env (fuel + 1) s st =
        getArchiveGo env fuel (promptOf s)
          { st with trace := .fetchRecentE (some BUILD_LIST_ITEM_COUNT) ::
              .visitE .buildList :: st.trace }) ∧
    (bs ≠ [] →
      bs.all (fun b => decide (b.updatedAtMs < env.nowMs - thirtyDaysMs)) = false →
      ∀ c, (bs.map (fun b => formatBuildChoice b (env.nowMs - thirtyDaysMs)) ++
          [escapeChoice]).get? (env.selectBuildAnswer st.promptCount) = some c →
      (c.value = none →
        getArchiveGo env (fuel + 1) s st =
          getArchiveGo env fuel (promptOf s)
            { promptCount := st.promptCount + 1,
              trace := .promptE :: .fetchRecentE (some BUILD_LIST_ITEM_COUNT) ::
                .visitE .buildList :: st.trace }) ∧
      (∀ b, c.value = some b →
        getArchiveGo env (fuel + 1) s st =
          (.ok { build := some b, source := s, url := none },
           { promptCount := st.promptCount + 1,
             trace := .promptE :: .fetchRecentE (some BUILD_LIST_ITEM_COUNT) ::
               .visitE .buildList :: st.trace }))) ∧
    (∀ b, b ∈ bs →
      ((formatBuildChoice b (env.nowMs - thirtyDaysMs)).disabled = true ↔
        b.updatedAtMs < env.nowMs - thirtyDaysMs)) := by
  obtain ⟨ty, pl, pid, ni, u, pa, i⟩ := s
  simp only at hty hni hfetch
  subst hty
  subst hni
  refine ⟨rfl, ?_, ?_, ?_, ?_⟩
  · intro hbs
    subst hbs
    simp [getArchiveGo, handleBuildListSource, logVisit, promptOf, hfetch]
  · intro hexp
    by_cases hlen : bs.length < 1
    · have hbs : bs = [] := by
        cases bs
        · rfl
        · simp at hlen
      subst hbs
      simp [getArchiveGo, handleBuildListSource, logVisit, promptOf, hfetch]
    · simp [getArchiveGo, handleBuildListSource, logVisit, promptOf, hfetch, hlen, hexp,
        promptStep]
  · intro hne hexp c hc
    have hlen : ¬ bs.length < 1 := by
      cases bs
      · exact absurd rfl hne
      · simp
    rw [List.get?_eq_getElem?] at hc
    constructor
    · intro hcv
      simp [getArchiveGo, handleBuildListSource, logVisit, promptOf, promptStep,
        hfetch, hlen, hexp, hc, hcv]
    · intro b hcv
      simp [getArchiveGo, handleBuildListSource, logVisit, promptOf, promptStep,
        hfetch, hlen, hexp, hc, hcv]
  · intro b _hb
    simp [formatBuildChoice]

/-- C7 witness: with one fresh and one expired recent build, picking the
first offered choice returns the archive referencing the fresh build. -/
theorem build_list_resolution_behavior_witness :
    getArchiveGo buildListEnv 2 buildListSrc { promptCount := 0, trace := [] } =
      (.ok { build := some freshBuild, source := buildListSrc, url := none },
       { promptCount := 1,
         trace := [.promptE, .fetchRecentE (some BUILD_LIST_ITEM_COUNT),
           .visitE .buildList] }) :=
  ((build_list_resolution_behavior buildListEnv buildListSrc { promptCount := 0, trace := [] }
      1 [freshBuild, staleBuild] rfl rfl rfl).2.2.2.1 (by decide) (by decide)
      (formatBuildChoice freshBuild (buildListEnv.nowMs - thirtyDaysMs)) (by decide)).2
      freshBuild (by decide)

/-- Helper for C6: every successful resolution result satisfies the
per-variant archive shape, by induction over the recursion fuel. -/
lemma getArchiveGo_shape (env : ResolveEnv) :
    ∀ (fuel : Nat) (s : ArchiveSrc) (st st2 : RSt) (a : Archive),
      getArchiveGo env fuel s st = (.ok a, st2) → archiveShapeOk a := by
  intro fuel
  induction fuel with
  | zero =>
    intro s st st2 a h
    simp [getArchiveGo] at h
  | succ n ih =>
    intro s st st2 a h
    obtain ⟨ty, pl, pid, ni, u, pa, i⟩ := s
    cases ty with
    | url =>
      simp only [getArchiveGo, handleUrlSource] at h
      split at h
      · exact ih _ _ _ _ h
      · split at h
        · split at h
          · split at h
            · exact ih _ _ _ _ h
            · obtain ⟨h1, h2⟩ := Prod.mk.injEq .. |>.mp h
              obtain rfl := (Except.ok.injEq .. |>.mp h1)
              exact ⟨rfl, u, rfl⟩
          · obtain ⟨h1, h2⟩ := Prod.mk.injEq .. |>.mp h
            obtain rfl := (Except.ok.injEq .. |>.mp h1)
            exact ⟨rfl, u, rfl⟩
        · obtain ⟨h1, h2⟩ := Prod.mk.injEq .. |>.mp h
          obtain rfl := (Except.ok.injEq .. |>.mp h1)
          exact ⟨rfl, u, rfl⟩
    | latest =>
      simp only [getArchiveGo, handleLatestSource] at h
      split at h
      · simp at h
      · split at h
        · exact ih _ _ _ _ h
        · rename_i b hb
          obtain ⟨h1, h2⟩ := Prod.mk.injEq .. |>.mp h
          obtain rfl := (Except.ok.injEq .. |>.mp h1)
          exact ⟨rfl, b, rfl⟩
    | path =>
      simp only [getArchiveGo, handlePathSource] at h
      split at h
      · exact ih _ _ _ _ h
      · split at h
        · rename_i uploadUrl hup
          obtain ⟨h1, h2⟩ := Prod.mk.injEq .. |>.mp h
          obtain rfl := (Except.ok.injEq .. |>.mp h1)
          exact ⟨rfl, uploadUrl, rfl⟩
        · simp at h
    | buildId =>
      simp only [getArchiveGo, handleBuildIdSource] at h
      cases hby : env.byId i with
      | error e =>
        rw [hby] at h
        simp only at h
        exact ih _ _ _ _ h
      | ok b =>
        rw [hby] at h
        simp only at h
        split at h
        · exact ih _ _ _ _ h
        · split at h
          · exact ih _ _ _ _ h
          · obtain ⟨h1, h2⟩ := Prod.mk.injEq .. |>.mp h
            obtain rfl := (Except.ok.injEq .. |>.mp h1)
            exact ⟨rfl, b, rfl⟩
    | buildList =>
      simp only [getArchiveGo, handleBuildListSource] at h
      split at h
      · simp at h
      · split at h
        · exact ih _ _ _ _ h
        · split at h
          · exact ih _ _ _ _ h
          · split at h
            · simp at h
            · split at h
              · exact ih _ _ _ _ h
              · rename_i b hb
                obtain ⟨h1, h2⟩ := Prod.mk.injEq .. |>.mp h
                obtain rfl := (Except.ok.injEq .. |>.mp h1)
                exact ⟨rfl, b, rfl⟩
    | prompt =>
      simp only [getArchiveGo, handlePromptSource] at h
      split at h
      · simp at h
      · split at h
        · split at h
          · simp at h
          · exact ih _ _ _ _ h
        · split at h
          · simp at h
          · exact ih _ _ _ _ h
        · exact ih _ _ _ _ h
        · split at h
          · simp at h
          · exact ih _ _ _ _ h
        · simp at h

/-- C6: every Archive a resolution run produces has exactly one of its url
and build fields set; moreover the url/path branches set url and leave build
unset while the latest/buildId/buildList branches set build and leave url
unset (and no archive carries the prompt tag). -/
theorem archive_exactly_one_of_url_build
    (env : ResolveEnv) (fuel : Nat) (s : ArchiveSrc) (a : Archive) (st2 : RSt)
    (h : getArchiveAsync env fuel s = (.ok a, st2)) :
    ((a.url.isSome = true ∧ a.build = none) ∨ (a.build.isSome = true ∧ a.url = none)) ∧
    archiveShapeOk a := by
  have hs := getArchiveGo_shape env fuel s _ st2 a h
  refine ⟨?_, hs⟩
  unfold archiveShapeOk at hs
  split at hs
  · obtain ⟨h1, uu, h2⟩ := hs
    exact Or.inl ⟨by simp [h2], h1⟩
  · obtain ⟨h1, uu, h2⟩ := hs
    exact Or.inl ⟨by simp [h2], h1⟩
  · obtain ⟨h1, bb, h2⟩ := hs
    exact Or.inr ⟨by simp [h2], h1⟩
  · obtain ⟨h1, bb, h2⟩ := hs
    exact Or.inr ⟨by simp [h2], h1⟩
  · obtain ⟨h1, bb, h2⟩ := hs
    exact Or.inr ⟨by simp [h2], h1⟩
  · exact absurd hs (by simp)

/-- C6 witness: a latest-resolution run producing an archive that references
the catalog's newest build satisfies the exactly-one invariant. -/
theorem archive_exactly_one_of_url_build_witness :
    ((({ build := some finSnapshot, source := latestSrc, url := none } : Archive).url.isSome =
        true ∧
      ({ build := some finSnapshot, source := latestSrc, url := none } : Archive).build =
        none) ∨
     (({ build := some finSnapshot, source := latestSrc, url := none } : Archive).build.isSome =
        true ∧
      ({ build := some finSnapshot, source := latestSrc, url := none } : Archive).url =
        none)) ∧
    archiveShapeOk { build := some finSnapshot, source := latestSrc, url := none } :=
  archive_exactly_one_of_url_build latestEnv 1 latestSrc
    { build := some finSnapshot, source := latestSrc, url := none }
    { promptCount := 0, trace := [.fetchRecentE none, .visitE .latest] } rfl

/-- C1 (amended): for every variant other than Interactive, when validation
of the supplied reference fails (invalid URL, missing path, unresolvable or
mismatched build id, empty or expired build list) and nonInteractive is
true, resolution fails with the NonInteractiveModeError and performs no
upload — but the failure arises BY recursing into the Interactive (prompt)
variant, whose first prompt fails fast in non-interactive mode; no branch
short-circuits with a pre-recursion non-interactive check. -/
theorem nonInteractive_validation_failure_fails_via_prompt
    (env : ResolveEnv) (s : ArchiveSrc) (fuel : Nat)
    (hni : s.nonInteractive = true) (hv : validationFails env s) (hf : 2 ≤ fuel) :
    (getArchiveAsync env fuel s).1 = .error .nonInteractiveMode ∧
    EffectE.visitE .prompt ∈ (getArchiveAsync env fuel s).2.trace ∧
    ∀ p, EffectE.uploadE p ∉ (getArchiveAsync env fuel s).2.trace := by
  obtain ⟨m, rfl⟩ : ∃ m, fuel = m + 2 := ⟨fuel - 2, by omega⟩
  obtain ⟨ty, pl, pid, ni, u, pa, i⟩ := s
  simp only at hni
  subst hni
  cases ty with
  | prompt => exact absurd hv (by simp [validationFails])
  | url =>
    have hv2 : validateUrl env u = false := hv
    simp [getArchiveAsync, getArchiveGo, handleUrlSource, handlePromptSource,
      promptStep, logVisit, promptOf, hv2]
  | path =>
    have hv2 : env.isExistingFile pa = false := hv
    simp [getArchiveAsync, getArchiveGo, handlePathSource, handlePromptSource,
      promptStep, logVisit, promptOf, hv2]
  | latest =>
    have hv2 : env.recentBuilds none = .ok [] := hv
    simp [getArchiveAsync, getArchiveGo, handleLatestSource, handlePromptSource,
      promptStep, logVisit, promptOf, hv2]
  | buildId =>
    rcases (hv : (∃ e, env.byId i = .error e) ∨
        (∃ b, env.byId i = .ok b ∧ b.platform ≠ toAppPlatform pl)) with ⟨e, he⟩ | ⟨b, hb, hmis⟩
    · simp [getArchiveAsync, getArchiveGo, handleBuildIdSource, handlePromptSource,
        promptStep, logVisit, promptOf, he]
    · simp [getArchiveAsync, getArchiveGo, handleBuildIdSource, handlePromptSource,
        promptStep, logVisit, promptOf, hb, hmis]
  | buildList =>
    obtain ⟨bs, hbs, hcase⟩ :=
      (hv : ∃ bs, env.recentBuilds (some BUILD_LIST_ITEM_COUNT) = .ok bs ∧
        (bs = [] ∨ bs.all (fun b => decide (b.updatedAtMs < env.nowMs - thirtyDaysMs)) = true))
    rcases hcase with rfl | hexp
    · simp [getArchiveAsync, getArchiveGo, handleBuildListSource, handlePromptSource,
        promptStep, logVisit, promptOf, hbs]
    · by_cases hlen : bs.length < 1
      · have hbs0 : bs = [] := by
          cases bs
          · rfl
          · simp at hlen
        subst hbs0
        simp [getArchiveAsync, getArchiveGo, handleBuildListSource, handlePromptSource,
          promptStep, logVisit, promptOf, hbs]
      · simp [getArchiveAsync, getArchiveGo, handleBuildListSource, handlePromptSource,
          promptStep, logVisit, promptOf, hbs, hlen, hexp]

/-- C1 witness: the concrete invalid-URL non-interactive run fails with the
NonInteractiveModeError and its trace visits the prompt variant. -/
theorem nonInteractive_validation_failure_fails_via_prompt_witness :
    (getArchiveAsync cexEnv 5 cexSrc).1 = .error .nonInteractiveMode ∧
    EffectE.visitE .prompt ∈ (getArchiveAsync cexEnv 5 cexSrc).2.trace :=
  ⟨(nonInteractive_validation_failure_fails_via_prompt cexEnv cexSrc 5 rfl rfl
      (by omega)).1,
   (nonInteractive_validation_failure_fails_via_prompt cexEnv cexSrc 5 rfl rfl
      (by omega)).2.1⟩

end EasCli
